import Mathlib

/-!
Verification of the TDD-orchestrator core
(`src/agents/05-tdd-orchestrator/tdd_orchestrator.py`).

The phase executors and the multi-cycle pipeline are embedded as pure Lean
functions.  The three external collaborators (the test runner and the three
generation capabilities of the LLM) are modelled as oracle streams in an
`Env`: each successive call of a kind consumes the next answer of that
stream, so any concrete external behaviour corresponds to some `Env`.  The
project file tree is an association list from relative path to content;
writes always succeed (the source creates parent directories as needed) and
reads fail exactly when the file is absent (`FileNotFoundError`); OS-level
faults caught by the generic `except Exception` branches are outside this
model.  Every executor additionally returns the list of events it performed
(test-runner invocations, generation calls, file writes, phase starts), so
that call-count and never-invoked properties can be stated about the trace.
-/

set_option maxHeartbeats 1000000
set_option maxRecDepth 4000

namespace TDD

/-- Result of one Test Runner invocation, as built by `run_tests`:
`success` is `returncode == 0` and `output` is stdout concatenated with
stderr. -/
structure TestResult where
  success : Bool
  output : String
deriving DecidableEq, Repr

/-- One failed GREEN attempt, as appended to `previous_attempts` in
`execute_green_phase`: the implementation code that was tried and the test
output it produced. -/
structure AttemptRecord where
  code : String
  error : String
deriving DecidableEq, Repr

/-- The project file tree, an association list from relative path to
content. -/
structure Workspace where
  files : List (String × String)
deriving DecidableEq, Repr

/-- Look a file up (`read_file`): `none` models `FileNotFoundError`. -/
def wsRead (ws : Workspace) (path : String) : Option String :=
  (ws.files.find? (fun e => e.1 == path)).map (fun e => e.2)

/-- Overwrite or create a file (`write_file` with `mkdir -p` semantics). -/
def wsWrite (ws : Workspace) (path content : String) : Workspace :=
  ⟨(path, content) :: ws.files.filter (fun e => e.1 != path)⟩

/-- The external collaborators as oracle streams, indexed by how many calls
of that kind have already happened: the test runner (`pnpm test`) and the
three `dspy.Predict` signatures.  `genTest` returns
`(test_code, test_filepath)`, `genImpl` returns
`(implementation_code, implementation_filepath)` and `genRefactor` returns
`(refactored_code, changes_made)`. -/
structure Env where
  testResults : Nat → TestResult
  genTest : Nat → String × String
  genImpl : Nat → String × String
  genRefactor : Nat → String × String

/-- The mutable world threaded through the executors: the file tree plus
the oracle cursors (how many calls of each kind have happened). -/
structure St where
  ws : Workspace
  testCalls : Nat
  genTestCalls : Nat
  genImplCalls : Nat
  genRefCalls : Nat
deriving DecidableEq, Repr

/-- Events recorded while the executors run (pure instrumentation of the
embedding; the source prints instead of tracing).  `genImplCall` records
the attempt number, the feedback (`hint`) string and the full `test_error`
input handed to the oracle. -/
inductive Ev where
  | testRun (res : TestResult)
  | redStart (requirement : String)
  | genTestCall (files : String)
  | greenStart (maxRetries : Nat)
  | genImplCall (attempt : Nat) (hint : String) (testErr : String)
  | attemptFail (failed : AttemptRecord)
  | refactorStart
  | genRefactorCall
  | fileWrite (path content : String)
deriving DecidableEq, Repr

/-- One Test Runner Gateway call (`run_tests`): consume the next oracle
answer. -/
def run_tests (env : Env) (s : St) : TestResult × St :=
  (env.testResults s.testCalls, { s with testCalls := s.testCalls + 1 })

/-- `read_file` on the workspace. -/
def read_file (s : St) (filepath : String) : Option String :=
  wsRead s.ws filepath

/-- `write_file` on the workspace. -/
def write_file (s : St) (filepath content : String) : St :=
  { s with ws := wsWrite s.ws filepath content }

/-- `list_files`: relative paths, `node_modules` excluded, sorted. -/
def list_files (s : St) : List String :=
  (((s.ws.files.map (fun e => e.1)).filter
      (fun p => (p.splitOn ("node_modules")).length == 1)).mergeSort
    (fun a b => decide (a ≤ b)))

/-- Result dictionary of `execute_red_phase`; keys absent in a given
return path keep their `""` defaults. -/
structure RedResult where
  success : Bool
  error : String := ""
  message : String := ""
  test_file : String := ""
  output : String := ""
deriving DecidableEq, Repr

/-- RED phase (`execute_red_phase`): list the project, ask the oracle for a
failing test, write it and require the test run to FAIL.  The write always
succeeds in the workspace model, so the write-failure early return of the
source is unreachable here. -/
def execute_red_phase (env : Env) (requirement : String) (s : St) :
    RedResult × St × List Ev :=
  let files := list_files s
  let files_str :=
    if files.isEmpty then "(empty project)" else String.intercalate ("\n") files
  let gen := env.genTest s.genTestCalls
  let s1 := { s with genTestCalls := s.genTestCalls + 1 }
  let s2 := write_file s1 gen.2 gen.1
  let tr := (run_tests env s2).1
  let s3 := (run_tests env s2).2
  let seg := [Ev.redStart requirement, Ev.genTestCall files_str,
              Ev.fileWrite gen.2 gen.1, Ev.testRun tr]
  if tr.success then
    ({ success := false,
       error := "Tests passed! But RED phase tests should FAIL.",
       output := tr.output }, s3, seg)
  else
    ({ success := true, message := "Test written and failing as expected",
       test_file := gen.2, output := tr.output }, s3, seg)

/-- Result dictionary of `execute_green_phase`; `attempts` is `none` on the
early read-failure return, where the source dictionary has no such key. -/
structure GreenResult where
  success : Bool
  error : String := ""
  message : String := ""
  impl_file : String := ""
  attempts : Option Nat := none
  output : String := ""
deriving DecidableEq, Repr

/-- The per-record block of the GREEN feedback string:
`f"\n--- Attempt {i} ---\n"` plus the code truncated to 500 characters and
the error truncated to 300. -/
def attemptDigest (i : Nat) (failed : AttemptRecord) : String :=
  "\n--- Attempt " ++ toString i ++ " ---\n" ++
  "Code tried:\n" ++ failed.code.take 500 ++ "...\n" ++
  "Error: " ++ failed.error.take 300 ++ "\n"

/-- The digests of all previous attempts, labelled from `i` upwards
(`enumerate(previous_attempts, 1)` starts labels at 1). -/
def hintBody : Nat → List AttemptRecord → String
  | _, [] => ""
  | i, p :: ps => attemptDigest i p ++ hintBody (i + 1) ps

/-- Closing instruction of the GREEN feedback string. -/
def hintFooter : String :=
  "\nDo NOT repeat these mistakes. Try a different approach."

/-- The GREEN feedback (`hint`) string: empty when there are no previous
attempts, otherwise header, one digest per previous attempt, and the
do-not-repeat instruction. -/
def buildHint (prevs : List AttemptRecord) : String :=
  if prevs.isEmpty then ""
  else "\n\nPREVIOUS FAILED ATTEMPTS:\n" ++ hintBody 1 prevs ++ hintFooter

/-- The retry loop of `execute_green_phase`.  `remaining` counts loop
iterations still allowed out of `maxRetries` total, so the source loop
variable is `attempt = maxRetries - remaining + 1`; `prevs` is the
accumulated failure history and `lastOut` the most recent runner output
(used by the exhaustion return; for `maxRetries = 0` the source would hit
an unbound local `test_result` there, which this model does not reproduce —
the claims all assume `maxRetries ≥ 1`).  Each iteration probes the runner,
asks the oracle with `test_error = probe output + hint`, writes the
returned implementation and re-runs the tests. -/
def greenLoop (env : Env) (maxRetries : Nat) :
    Nat → List AttemptRecord → String → St → GreenResult × St × List Ev
  | 0, _, lastOut, s =>
      ({ success := false,
         error := "Tests still failing after " ++ toString maxRetries ++ " attempts",
         attempts := some maxRetries, output := lastOut }, s, [])
  | r + 1, prevs, _, s =>
      let attempt := maxRetries - r
      let probe := (run_tests env s).1
      let s1 := (run_tests env s).2
      let hint := buildHint prevs
      let gen := env.genImpl s1.genImplCalls
      let s2 := { s1 with genImplCalls := s1.genImplCalls + 1 }
      let s3 := write_file s2 gen.2 gen.1
      let verify := (run_tests env s3).1
      let s4 := (run_tests env s3).2
      let seg := [Ev.testRun probe,
                  Ev.genImplCall attempt hint (probe.output ++ hint),
                  Ev.fileWrite gen.2 gen.1, Ev.testRun verify]
      if verify.success then
        ({ success := true,
           message := "Implementation written and tests pass (attempt " ++
                      toString attempt ++ ")",
           impl_file := gen.2, attempts := some attempt,
           output := verify.output }, s4, seg)
      else
        let failed : AttemptRecord := { code := gen.1, error := verify.output }
        let out := greenLoop env maxRetries r (prevs ++ [failed]) verify.output s4
        (out.1, out.2.1, seg ++ Ev.attemptFail failed :: out.2.2)

/-- GREEN phase (`execute_green_phase`): read the test file (unreadable →
immediate failure, no generation attempted), then run the bounded retry
loop.  The source parameter default is `max_retries = 3`. -/
def execute_green_phase (env : Env) (test_filepath : String)
    (max_retries : Nat) (s : St) : GreenResult × St × List Ev :=
  match read_file s test_filepath with
  | none =>
      ({ success := false,
         error := "Cannot read test: File not found: " ++ test_filepath },
       s, [Ev.greenStart max_retries])
  | some _ =>
      let out := greenLoop env max_retries max_retries [] ("") s
      (out.1, out.2.1, Ev.greenStart max_retries :: out.2.2)

/-- Result dictionary of `execute_refactor_phase`. -/
structure RefactorResult where
  success : Bool
  error : String := ""
  message : String := ""
  output : String := ""
deriving DecidableEq, Repr

/-- REFACTOR phase (`execute_refactor_phase`): read both files (either
unreadable → immediate failure), ask the oracle for a rewrite, overwrite
the implementation file, re-run the tests, and on failure roll the
implementation file back to the content read at the start. -/
def execute_refactor_phase (env : Env) (test_filepath impl_filepath : String)
    (s : St) : RefactorResult × St × List Ev :=
  match read_file s test_filepath, read_file s impl_filepath with
  | some _, some implContent =>
      let gen := env.genRefactor s.genRefCalls
      let s1 := { s with genRefCalls := s.genRefCalls + 1 }
      let s2 := write_file s1 impl_filepath gen.1
      let tr := (run_tests env s2).1
      let s3 := (run_tests env s2).2
      let seg := [Ev.refactorStart, Ev.genRefactorCall,
                  Ev.fileWrite impl_filepath gen.1, Ev.testRun tr]
      if tr.success then
        ({ success := true, message := gen.2, output := tr.output }, s3, seg)
      else
        let s4 := write_file s3 impl_filepath implContent
        ({ success := false,
           error := "Refactoring broke tests - rolled back",
           output := tr.output }, s4,
         seg ++ [Ev.fileWrite impl_filepath implContent])
  | _, _ =>
      ({ success := false,
         error := "Cannot read test or implementation file" },
       s, [Ev.refactorStart])

/-- One row of the pipeline summary (the `cycle_result` dictionary in
`run_tdd_cycles`): phase outcomes are filled in only for phases actually
attempted. -/
structure CycleRecord where
  requirement : String
  cycle : Nat
  red : Option RedResult := none
  green : Option GreenResult := none
  refactor : Option RefactorResult := none
  status : String := ""
deriving DecidableEq, Repr

/-- Body of the `run_tdd_cycles` loop for one requirement (cycle index
`i`): RED, then GREEN — invoked with the source default `max_retries = 3`,
since `run_tdd_cycles` passes no retry count — then REFACTOR,
short-circuiting after the first failed phase. -/
def runCycle (env : Env) (i : Nat) (requirement : String) (s : St) :
    CycleRecord × St × List Ev :=
  let redOut := execute_red_phase env requirement s
  let red := redOut.1
  if red.success then
    let greenOut := execute_green_phase env red.test_file 3 redOut.2.1
    let green := greenOut.1
    if green.success then
      let refOut :=
        execute_refactor_phase env red.test_file green.impl_file greenOut.2.1
      let refac := refOut.1
      ({ requirement := requirement, cycle := i, red := some red,
         green := some green, refactor := some refac,
         status := if refac.success then "complete" else "failed_refactor" },
       refOut.2.1, redOut.2.2 ++ greenOut.2.2 ++ refOut.2.2)
    else
      ({ requirement := requirement, cycle := i, red := some red,
         green := some green, status := "failed_green" },
       greenOut.2.1, redOut.2.2 ++ greenOut.2.2)
  else
    ({ requirement := requirement, cycle := i, red := some red,
       status := "failed_red" }, redOut.2.1, redOut.2.2)

/-- The pipeline summary returned by `run_tdd_cycles`. -/
structure Summary where
  total : Nat
  completed : Nat
  cycles : List CycleRecord
deriving DecidableEq, Repr

/-- The `for i, requirement in enumerate(requirements, 1)` loop of
`run_tdd_cycles`. -/
def runCyclesLoop (env : Env) :
    List String → Nat → St → List CycleRecord × St × List Ev
  | [], _, s => ([], s, [])
  | req :: rest, i, s =>
      let cycOut := runCycle env i req s
      let restOut := runCyclesLoop env rest (i + 1) cycOut.2.1
      (cycOut.1 :: restOut.1, restOut.2.1, cycOut.2.2 ++ restOut.2.2)

/-- Pipeline entry point (`run_tdd_cycles`): one cycle per requirement, in
order; `completed` counts the cycles whose status is `"complete"`.  The
source function takes no retry-count argument — `execute_green_phase` is
always invoked with its default. -/
def run_tdd_cycles (env : Env) (requirements : List String) (s : St) :
    Summary × St × List Ev :=
  let out := runCyclesLoop env requirements 1 s
  ({ total := requirements.length,
     completed := out.1.countP (fun r => r.status == "complete"),
     cycles := out.1 }, out.2.1, out.2.2)

/-- Modelled from the spec: the cycle of §4.4 as run under the §6 pipeline
entry point, which — unlike the source `run_tdd_cycles` — receives a
caller-supplied maximum Green-Phase retry count and passes it to the Green
Phase. -/
def runCycleSpec (env : Env) (maxRetries : Nat) (i : Nat)
    (requirement : String) (s : St) : CycleRecord × St × List Ev :=
  let redOut := execute_red_phase env requirement s
  let red := redOut.1
  if red.success then
    let greenOut := execute_green_phase env red.test_file maxRetries redOut.2.1
    let green := greenOut.1
    if green.success then
      let refOut :=
        execute_refactor_phase env red.test_file green.impl_file greenOut.2.1
      let refac := refOut.1
      ({ requirement := requirement, cycle := i, red := some red,
         green := some green, refactor := some refac,
         status := if refac.success then "complete" else "failed_refactor" },
       refOut.2.1, redOut.2.2 ++ greenOut.2.2 ++ refOut.2.2)
    else
      ({ requirement := requirement, cycle := i, red := some red,
         green := some green, status := "failed_green" },
       greenOut.2.1, redOut.2.2 ++ greenOut.2.2)
  else
    ({ requirement := requirement, cycle := i, red := some red,
       status := "failed_red" }, redOut.2.1, redOut.2.2)

/-- Modelled from the spec: the requirement loop of the §6 entry point,
threading the caller-supplied retry count into every cycle. -/
def runCyclesLoopSpec (env : Env) (maxRetries : Nat) :
    List String → Nat → St → List CycleRecord × St × List Ev
  | [], _, s => ([], s, [])
  | req :: rest, i, s =>
      let cycOut := runCycleSpec env maxRetries i req s
      let restOut := runCyclesLoopSpec env maxRetries rest (i + 1) cycOut.2.1
      (cycOut.1 :: restOut.1, restOut.2.1, cycOut.2.2 ++ restOut.2.2)

/-- Modelled from the spec: the §6 pipeline entry point, which accepts an
ordered list of requirement strings AND a maximum Green-Phase retry count,
and invokes the Green Phase with that caller-supplied value on every
cycle. -/
def run_tdd_cycles_spec (env : Env) (requirements : List String)
    (maxRetries : Nat) (s : St) : Summary × St × List Ev :=
  let out := runCyclesLoopSpec env maxRetries requirements 1 s
  ({ total := requirements.length,
     completed := out.1.countP (fun r => r.status == "complete"),
     cycles := out.1 }, out.2.1, out.2.2)

/-- Outcome of the `subprocess.run(["pnpm", "test"], ..., timeout=30)`
call inside `run_tests`: either the process finished with a return code,
stdout and stderr, or it exceeded the 30-second timeout, in which case
`subprocess.run` raises `subprocess.TimeoutExpired`. -/
inductive ProcResult where
  | completed (returncode : Int) (stdout stderr : String)
  | timedOut (msg : String)
deriving DecidableEq, Repr

/-- Gateway-level model of `run_tests`: the body contains no try/except,
so a `TimeoutExpired` raised by `subprocess.run` propagates to the caller
(modelled as `Except.error`); a finished process is turned into the
structured `{success, output}` dictionary. -/
def run_tests_subprocess (p : ProcResult) : Except String TestResult :=
  match p with
  | .completed rc out err => .ok { success := rc == 0, output := out ++ err }
  | .timedOut msg => .error msg

/-- The oracle calls to `WriteMinimalCode` occurring in a trace segment:
`(attempt number, hint string, full test_error input)`. -/
def implEvents (seg : List Ev) : List (Nat × String × String) :=
  seg.filterMap (fun e =>
    match e with
    | .genImplCall n h te => some (n, h, te)
    | _ => none)

/-- The failed GREEN attempts recorded in a trace segment, in order. -/
def failEvents (seg : List Ev) : List AttemptRecord :=
  seg.filterMap (fun e =>
    match e with
    | .attemptFail f => some f
    | _ => none)

/-- A concrete environment in which every test run fails and the oracles
answer with fixed tiny artifacts (test file `t`, implementation file `i`). -/
def envA : Env :=
  { testResults := fun _ => { success := false, output := "o" },
    genTest := fun _ => ("T", "t"),
    genImpl := fun _ => ("c", "i"),
    genRefactor := fun _ => ("R", "m") }

/-- A concrete environment in which every test run passes. -/
def envB : Env :=
  { testResults := fun _ => { success := true, output := "ok" },
    genTest := fun _ => ("T", "t"),
    genImpl := fun _ => ("c", "i"),
    genRefactor := fun _ => ("R", "m") }

/-- The empty starting state. -/
def st0 : St :=
  { ws := ⟨[]⟩, testCalls := 0, genTestCalls := 0, genImplCalls := 0,
    genRefCalls := 0 }

/-- A starting state whose workspace already holds the test file `t`. -/
def stT : St := { st0 with ws := ⟨[("t", "T")]⟩ }

/-- A starting state holding both the test file `t` and the implementation
file `i`. -/
def stTI : St := { st0 with ws := ⟨[("t", "T"), ("i", "I")]⟩ }

/-- The cycle record produced by running the pipeline on `["r"]` in `envA`
(red succeeds, green exhausts its 3 attempts, so the cycle fails green). -/
def cFG : CycleRecord :=
  { requirement := "r", cycle := 1,
    red := some { success := true, error := "",
                  message := "Test written and failing as expected",
                  test_file := "t", output := "o" },
    green := some { success := false,
                    error := "Tests still failing after 3 attempts",
                    message := "", impl_file := "", attempts := some 3,
                    output := "o" },
    refactor := none, status := "failed_green" }

/-- The second `WriteMinimalCode` call event produced by running the Green
Phase in `envA` with `maxRetries = 2`: attempt 2, whose hint digests the
one failed attempt `(code "c", error "o")`. -/
def evW : Nat × String × String :=
  (2, buildHint [⟨"c", "o"⟩], "o" ++ buildHint [⟨"c", "o"⟩])

theorem find?_filter_ne (l : List (String × String)) (p q : String)
    (h : q ≠ p) :
    (l.filter (fun e => e.1 != p)).find? (fun e => e.1 == q) =
      l.find? (fun e => e.1 == q) := by
  induction l with
  | nil => rfl
  | cons a l ih =>
    by_cases ha : a.1 = p
    · have h1 : List.filter (fun e => e.1 != p) (a :: l) =
          List.filter (fun e => e.1 != p) l := by
        apply List.filter_cons_of_neg
        simp [ha]
      have h2 : List.find? (fun e => e.1 == q) (a :: l) =
          List.find? (fun e => e.1 == q) l := by
        apply List.find?_cons_of_neg
        simp [ha]
        exact fun hq => h hq.symm
      rw [h1, h2, ih]
    · have h1 : List.filter (fun e => e.1 != p) (a :: l) =
          a :: List.filter (fun e => e.1 != p) l := by
        apply List.filter_cons_of_pos
        simp [ha]
      rw [h1]
      by_cases haq : a.1 = q
      · have h2 : List.find? (fun e => e.1 == q)
            (a :: List.filter (fun e => e.1 != p) l) = some a := by
          apply List.find?_cons_of_pos
          simp [haq]
        have h3 : List.find? (fun e => e.1 == q) (a :: l) = some a := by
          apply List.find?_cons_of_pos
          simp [haq]
        rw [h2, h3]
      · have h2 : List.find? (fun e => e.1 == q)
            (a :: List.filter (fun e => e.1 != p) l) =
            List.find? (fun e => e.1 == q)
              (List.filter (fun e => e.1 != p) l) := by
          apply List.find?_cons_of_neg
          simp [haq]
        have h3 : List.find? (fun e => e.1 == q) (a :: l) =
            List.find? (fun e => e.1 == q) l := by
          apply List.find?_cons_of_neg
          simp [haq]
        rw [h2, h3, ih]

theorem wsRead_wsWrite (ws : Workspace) (p q c : String) :
    wsRead (wsWrite ws p c) q = if q = p then some c else wsRead ws q := by
  by_cases h : q = p
  · subst h
    simp [wsRead, wsWrite, List.find?_cons]
  · simp [wsRead, wsWrite, List.find?_cons, h, Ne.symm h,
      find?_filter_ne ws.files p q h]

/-- C3: in every Red Phase call in which the test file is written (writes
always succeed in the workspace model), a passing test run makes the phase
fail, a failing test run makes the phase succeed carrying the generated
test filepath and the raw runner output; and the phase performs exactly one
generation call and one test run (no retry). -/
theorem red_phase_contract (env : Env) (requirement : String) (s : St) :
    ((env.testResults s.testCalls).success = true →
      (execute_red_phase env requirement s).1.success = false) ∧
    ((env.testResults s.testCalls).success = false →
      (execute_red_phase env requirement s).1.success = true ∧
      (execute_red_phase env requirement s).1.test_file =
        (env.genTest s.genTestCalls).2 ∧
      (execute_red_phase env requirement s).1.output =
        (env.testResults s.testCalls).output) ∧
    (execute_red_phase env requirement s).2.1.genTestCalls =
      s.genTestCalls + 1 ∧
    (execute_red_phase env requirement s).2.1.testCalls = s.testCalls + 1 := by
  simp only [execute_red_phase, run_tests, write_file]
  by_cases h : (env.testResults s.testCalls).success <;> simp [h]

theorem red_phase_contract_witness :
    (envA.testResults stT.testCalls).success = false ∧
    ((execute_red_phase envA ("r") stT).1.success = true ∧
     (execute_red_phase envA ("r") stT).1.test_file =
       (envA.genTest stT.genTestCalls).2 ∧
     (execute_red_phase envA ("r") stT).1.output =
       (envA.testResults stT.testCalls).output) :=
  ⟨by decide, (red_phase_contract envA ("r") stT).2.1 (by decide)⟩

/-- C7: the source behaviour at a test-command timeout.  `subprocess.run`
raises `TimeoutExpired` when `pnpm test` exceeds the 30-second bound, and
`run_tests` contains no try/except, so the fault propagates uncaught
(`Except.error`) instead of surfacing as the structured
`{success: false, output: <timeout message>}` result the spec requires. -/
theorem run_tests_timeout_uncaught :
    run_tests_subprocess (ProcResult.timedOut ("TimeoutExpired")) =
      Except.error ("TimeoutExpired") ∧
    ∀ r : TestResult,
      run_tests_subprocess (ProcResult.timedOut ("TimeoutExpired")) ≠
        Except.ok r := by
  refine ⟨rfl, ?_⟩
  intro r h
  cases h

/-- C5: in every pipeline run the summary's `completed` equals the number
of cycle records whose status is `complete`, `total` equals the number of
requirements, and the empty-requirements run returns
`total = 0, completed = 0` with no cycle records. -/
theorem summary_consistency (env : Env) (requirements : List String)
    (s : St) :
    (run_tdd_cycles env requirements s).1.completed =
      ((run_tdd_cycles env requirements s).1.cycles.filter
        (fun c => c.status == "complete")).length ∧
    (run_tdd_cycles env requirements s).1.total = requirements.length ∧
    (requirements = [] →
      (run_tdd_cycles env requirements s).1.total = 0 ∧
      (run_tdd_cycles env requirements s).1.completed = 0 ∧
      (run_tdd_cycles env requirements s).1.cycles = []) := by
  refine ⟨?_, rfl, ?_⟩
  · simp [run_tdd_cycles, List.countP_eq_length_filter]
  · rintro rfl
    simp [run_tdd_cycles, runCyclesLoop]

theorem summary_consistency_witness :
    (run_tdd_cycles envA [] st0).1.total = 0 ∧
    (run_tdd_cycles envA [] st0).1.completed = 0 ∧
    (run_tdd_cycles envA [] st0).1.cycles = [] :=
  (summary_consistency envA [] st0).2.2 rfl

/-- C2: in every Refactor Phase call, a failing post-refactor test run
yields a failed outcome with the workspace read-identical to its pre-call
state (the rollback restores the pre-refactor bytes, and no other file is
touched); more generally every call ends either failed-and-unchanged or
succeeded with the implementation file holding the refactored code and the
post-refactor run green. -/
theorem refactor_safety (env : Env) (tfp ifp : String) (s : St) :
    ((env.testResults s.testCalls).success = false →
      (execute_refactor_phase env tfp ifp s).1.success = false) ∧
    ((execute_refactor_phase env tfp ifp s).1.success = false →
      ∀ p, wsRead (execute_refactor_phase env tfp ifp s).2.1.ws p =
        wsRead s.ws p) ∧
    ((execute_refactor_phase env tfp ifp s).1.success = true →
      wsRead (execute_refactor_phase env tfp ifp s).2.1.ws ifp =
        some (env.genRefactor s.genRefCalls).1 ∧
      (env.testResults s.testCalls).success = true) := by
  simp only [execute_refactor_phase, run_tests, write_file, read_file]
  cases h1 : wsRead s.ws tfp with
  | none => simp
  | some tc =>
    cases h2 : wsRead s.ws ifp with
    | none => simp
    | some ic =>
      by_cases ht : (env.testResults s.testCalls).success
      · simp [ht, wsRead_wsWrite]
      · simp only [Bool.not_eq_true] at ht
        simp only [ht, Bool.false_eq_true, if_false]
        refine ⟨fun _ => trivial, fun _ => ?_, fun h => by cases h⟩
        intro p
        rw [wsRead_wsWrite, wsRead_wsWrite]
        by_cases hp : p = ifp
        · rw [if_pos hp, hp, h2]
        · rw [if_neg hp, if_neg hp]

theorem refactor_safety_witness :
    (envA.testResults stTI.testCalls).success = false ∧
    (execute_refactor_phase envA ("t") ("i") stTI).1.success = false ∧
    wsRead (execute_refactor_phase envA ("t") ("i") stTI).2.1.ws ("i") =
      wsRead stTI.ws ("i") :=
  ⟨by decide, (refactor_safety envA ("t") ("i") stTI).1 (by decide),
    (refactor_safety envA ("t") ("i") stTI).2.1
      ((refactor_safety envA ("t") ("i") stTI).1 (by decide)) ("i")⟩

theorem cycles_loop_eq_spec (env : Env) :
    ∀ reqs i s, runCyclesLoop env reqs i s = runCyclesLoopSpec env 3 reqs i s := by
  intro reqs
  induction reqs with
  | nil => intro i s; rfl
  | cons req rest ih =>
    intro i s
    simp only [runCyclesLoop, runCyclesLoopSpec]
    have h : runCycle env i req s = runCycleSpec env 3 i req s := rfl
    rw [h, ih]

/-- C8 (amended): the source pipeline entry point takes no retry-count
argument; every run behaves exactly like the spec-modelled entry point
called with the fixed default retry count 3. -/
theorem pipeline_default_retries (env : Env) (requirements : List String)
    (s : St) :
    run_tdd_cycles env requirements s =
      run_tdd_cycles_spec env requirements 3 s := by
  simp only [run_tdd_cycles, run_tdd_cycles_spec, cycles_loop_eq_spec]

/-- C8 (counterexample): the claim that the pipeline invokes the Green
Phase with a caller-supplied `maxRetries` fails: for a caller wanting
`maxRetries = 1`, the source run differs from the spec-modelled run (the
source Green Phase performs 3 attempts regardless). -/
theorem pipeline_retry_param_counterexample :
    run_tdd_cycles envA ["r"] st0 ≠ run_tdd_cycles_spec envA ["r"] 1 st0 := by
  decide

theorem greenLoop_bounds (env : Env) (K : Nat) :
    ∀ r prevs lastOut s,
      (greenLoop env K r prevs lastOut s).2.1.genImplCalls ≤
        s.genImplCalls + r ∧
      (greenLoop env K r prevs lastOut s).2.1.testCalls ≤
        s.testCalls + 2 * r ∧
      ∀ a, (greenLoop env K r prevs lastOut s).1.attempts = some a →
        a ≤ K := by
  intro r
  induction r with
  | zero =>
    intro prevs lastOut s
    simp only [greenLoop]
    refine ⟨Nat.le_refl _, by omega, ?_⟩
    intro a ha
    simp only [Option.some.injEq] at ha
    omega
  | succ n ih =>
    intro prevs lastOut s
    simp only [greenLoop, run_tests, write_file]
    split
    · refine ⟨by simp, by simp; omega, ?_⟩
      intro a ha
      simp only [Option.some.injEq] at ha
      omega
    · refine ⟨le_trans (ih _ _ _).1 (by simp; omega),
        le_trans (ih _ _ _).2.1 (by simp; omega), (ih _ _ _).2.2⟩

/-- C1 (amended): for every Green Phase call with `maxRetries = k ≥ 1`, the
phase makes at most `k` generation calls and at most `2k` Test Runner
invocations in total — that is, at most `2k - 1` beyond the initial probe,
since every attempt both probes and verifies — and every reported attempt
count is at most `k`. -/
theorem green_bound_amended (env : Env) (test_filepath : String) (k : Nat)
    (s : St) (_hk : 1 ≤ k) :
    (execute_green_phase env test_filepath k s).2.1.genImplCalls ≤
      s.genImplCalls + k ∧
    (execute_green_phase env test_filepath k s).2.1.testCalls ≤
      s.testCalls + 2 * k ∧
    ∀ a, (execute_green_phase env test_filepath k s).1.attempts = some a →
      a ≤ k := by
  simp only [execute_green_phase]
  cases h : read_file s test_filepath with
  | none => simp
  | some tc => exact greenLoop_bounds env k k [] ("") s

theorem green_bound_amended_witness :
    1 ≤ 2 ∧
    ((execute_green_phase envA ("t") 2 stT).2.1.genImplCalls ≤
       stT.genImplCalls + 2 ∧
     (execute_green_phase envA ("t") 2 stT).2.1.testCalls ≤
       stT.testCalls + 2 * 2 ∧
     ∀ a, (execute_green_phase envA ("t") 2 stT).1.attempts = some a →
       a ≤ 2) :=
  ⟨by decide, green_bound_amended envA ("t") 2 stT (by decide)⟩

/-- C1 (counterexample): with `maxRetries = 2` and an environment in which
the tests keep failing, the Green Phase makes 4 Test Runner invocations —
more than the claimed bound of one initial probe plus `k = 2`. -/
theorem green_bound_counterexample :
    ¬ ((execute_green_phase envA ("t") 2 stT).2.1.genImplCalls ≤
         stT.genImplCalls + 2 ∧
       (execute_green_phase envA ("t") 2 stT).2.1.testCalls ≤
         stT.testCalls + (2 + 1) ∧
       ∀ a, (execute_green_phase envA ("t") 2 stT).1.attempts = some a →
         a ≤ 2) := by
  intro h
  exact absurd h.2.1 (by decide)

theorem red_seg (env : Env) (req : String) (s : St) :
    ∃ fs tr, (execute_red_phase env req s).2.2 =
      [Ev.redStart req, Ev.genTestCall fs,
       Ev.fileWrite (env.genTest s.genTestCalls).2 (env.genTest s.genTestCalls).1,
       Ev.testRun tr] := by
  simp only [execute_red_phase, run_tests, write_file]
  split
  · exact ⟨_, _, rfl⟩
  · exact ⟨_, _, rfl⟩

theorem greenLoop_no_marks (env : Env) (K : Nat) :
    ∀ r prevs lastOut s e, e ∈ (greenLoop env K r prevs lastOut s).2.2 →
      (∀ mr, e ≠ Ev.greenStart mr) ∧ e ≠ Ev.refactorStart := by
  intro r
  induction r with
  | zero =>
    intro prevs lastOut s e he
    simp [greenLoop] at he
  | succ n ih =>
    intro prevs lastOut s e he
    simp only [greenLoop, run_tests, write_file] at he
    split at he
    · simp only [List.mem_cons, List.not_mem_nil, or_false] at he
      rcases he with h | h | h | h <;> subst h <;>
        exact ⟨fun mr h => Ev.noConfusion h, fun h => Ev.noConfusion h⟩
    · simp only [List.cons_append, List.nil_append, List.mem_cons,
        List.mem_append] at he
      rcases he with h | h | h | h | h | h
      · subst h; exact ⟨fun mr h => Ev.noConfusion h, fun h => Ev.noConfusion h⟩
      · subst h; exact ⟨fun mr h => Ev.noConfusion h, fun h => Ev.noConfusion h⟩
      · subst h; exact ⟨fun mr h => Ev.noConfusion h, fun h => Ev.noConfusion h⟩
      · subst h; exact ⟨fun mr h => Ev.noConfusion h, fun h => Ev.noConfusion h⟩
      · subst h; exact ⟨fun mr h => Ev.noConfusion h, fun h => Ev.noConfusion h⟩
      · exact ih _ _ _ _ h

theorem green_no_refactor (env : Env) (fp : String) (k : Nat) (s : St) :
    Ev.refactorStart ∉ (execute_green_phase env fp k s).2.2 := by
  simp only [execute_green_phase]
  cases h : read_file s fp with
  | none => simp
  | some tc =>
    intro hmem
    simp only [List.mem_cons] at hmem
    rcases hmem with h1 | h1
    · exact Ev.noConfusion h1
    · exact (greenLoop_no_marks env k k [] ("") s Ev.refactorStart h1).2 rfl

/-- C4: for every requirement cycle, if the Red Phase fails then the Green
and Refactor phases are never invoked (no `greenStart` or `refactorStart`
event occurs in that cycle), and if the Green Phase fails then the
Refactor Phase is never invoked. -/
theorem cycle_short_circuit (env : Env) (i : Nat) (req : String) (s : St) :
    (∀ r : RedResult, (runCycle env i req s).1.red = some r →
      r.success = false →
      (∀ mr, Ev.greenStart mr ∉ (runCycle env i req s).2.2) ∧
      Ev.refactorStart ∉ (runCycle env i req s).2.2) ∧
    (∀ g : GreenResult, (runCycle env i req s).1.green = some g →
      g.success = false →
      Ev.refactorStart ∉ (runCycle env i req s).2.2) := by
  obtain ⟨fs, tr, hseg⟩ := red_seg env req s
  simp only [runCycle]
  by_cases hred : (execute_red_phase env req s).1.success = true
  · rw [if_pos hred]
    by_cases hgreen : (execute_green_phase env
        (execute_red_phase env req s).1.test_file 3
        (execute_red_phase env req s).2.1).1.success = true
    · rw [if_pos hgreen]
      constructor
      · intro r hr hrf
        simp only [Option.some.injEq] at hr
        rw [hr, hrf] at hred
        exact Bool.noConfusion hred
      · intro g hg hgf
        simp only [Option.some.injEq] at hg
        rw [hg, hgf] at hgreen
        exact Bool.noConfusion hgreen
    · rw [if_neg hgreen]
      constructor
      · intro r hr hrf
        simp only [Option.some.injEq] at hr
        rw [hr, hrf] at hred
        exact Bool.noConfusion hred
      · intro g hg hgf hmem
        simp only [List.mem_append] at hmem
        rcases hmem with h1 | h1
        · rw [hseg] at h1
          simp at h1
        · exact green_no_refactor env _ 3 _ h1
  · rw [if_neg hred]
    constructor
    · intro r hr hrf
      refine ⟨fun mr hmem => ?_, fun hmem => ?_⟩ <;>
        · rw [hseg] at hmem
          simp at hmem
    · intro g hg
      cases hg

theorem cycle_short_circuit_witness :
    (runCycle envB 1 ("r") st0).1.red =
      some { success := false,
             error := "Tests passed! But RED phase tests should FAIL.",
             output := "ok" } ∧
    ((∀ mr, Ev.greenStart mr ∉ (runCycle envB 1 ("r") st0).2.2) ∧
      Ev.refactorStart ∉ (runCycle envB 1 ("r") st0).2.2) :=
  ⟨by decide,
    (cycle_short_circuit envB 1 ("r") st0).1
      { success := false,
        error := "Tests passed! But RED phase tests should FAIL.",
        output := "ok" } (by decide) (by decide)⟩

theorem runCycle_record (env : Env) (i : Nat) (req : String) (s : St) :
    ((runCycle env i req s).1.status = "complete" →
      ∃ r g f, (runCycle env i req s).1.red = some r ∧ r.success = true ∧
        (runCycle env i req s).1.green = some g ∧ g.success = true ∧
        (runCycle env i req s).1.refactor = some f ∧ f.success = true) ∧
    ((runCycle env i req s).1.status = "failed_red" →
      ∃ r, (runCycle env i req s).1.red = some r ∧ r.success = false ∧
        (runCycle env i req s).1.green = none ∧
        (runCycle env i req s).1.refactor = none) ∧
    ((runCycle env i req s).1.status = "failed_green" →
      ∃ g, (runCycle env i req s).1.green = some g ∧ g.success = false ∧
        (runCycle env i req s).1.refactor = none) ∧
    ((runCycle env i req s).1.status = "failed_refactor" →
      ∃ f, (runCycle env i req s).1.refactor = some f ∧
        f.success = false) := by
  simp only [runCycle]
  by_cases hred : (execute_red_phase env req s).1.success = true
  · rw [if_pos hred]
    by_cases hgreen : (execute_green_phase env
        (execute_red_phase env req s).1.test_file 3
        (execute_red_phase env req s).2.1).1.success = true
    · rw [if_pos hgreen]
      by_cases href : (execute_refactor_phase env
          (execute_red_phase env req s).1.test_file
          (execute_green_phase env (execute_red_phase env req s).1.test_file 3
            (execute_red_phase env req s).2.1).1.impl_file
          (execute_green_phase env (execute_red_phase env req s).1.test_file 3
            (execute_red_phase env req s).2.1).2.1).1.success = true
      · rw [if_pos href]
        refine ⟨fun _ => ⟨_, _, _, rfl, hred, rfl, hgreen, rfl, href⟩,
          fun h => by simp at h, fun h => by simp at h,
          fun h => by simp at h⟩
      · rw [if_neg href]
        simp only [Bool.not_eq_true] at href
        refine ⟨fun h => by simp at h, fun h => by simp at h,
          fun h => by simp at h, fun _ => ⟨_, rfl, href⟩⟩
    · rw [if_neg hgreen]
      simp only [Bool.not_eq_true] at hgreen
      refine ⟨fun h => by simp at h, fun h => by simp at h,
        fun _ => ⟨_, rfl, hgreen, rfl⟩, fun h => by simp at h⟩
  · rw [if_neg hred]
    simp only [Bool.not_eq_true] at hred
    refine ⟨fun h => by simp at h,
      fun _ => ⟨_, rfl, hred, rfl, rfl⟩,
      fun h => by simp at h, fun h => by simp at h⟩

theorem runCyclesLoop_mem (env : Env) :
    ∀ reqs i s c, c ∈ (runCyclesLoop env reqs i s).1 →
      ∃ j req s2, c = (runCycle env j req s2).1 := by
  intro reqs
  induction reqs with
  | nil =>
    intro i s c hc
    simp [runCyclesLoop] at hc
  | cons req rest ih =>
    intro i s c hc
    simp only [runCyclesLoop, List.mem_cons] at hc
    rcases hc with h | h
    · exact ⟨i, req, s, h⟩
    · exact ih _ _ _ h

/-- C6: every cycle record of a pipeline run satisfies the status
invariants: `complete` implies all three phase outcomes are present and
succeeded; `failed_red` implies a failed red outcome with green and
refactor absent; `failed_green` implies a failed green outcome with
refactor absent; `failed_refactor` implies a failed refactor outcome (no
later phase exists). -/
theorem cycle_record_invariants (env : Env) (reqs : List String) (s : St)
    (c : CycleRecord) (hc : c ∈ (run_tdd_cycles env reqs s).1.cycles) :
    (c.status = "complete" →
      ∃ r g f, c.red = some r ∧ r.success = true ∧ c.green = some g ∧
        g.success = true ∧ c.refactor = some f ∧ f.success = true) ∧
    (c.status = "failed_red" →
      ∃ r, c.red = some r ∧ r.success = false ∧ c.green = none ∧
        c.refactor = none) ∧
    (c.status = "failed_green" →
      ∃ g, c.green = some g ∧ g.success = false ∧ c.refactor = none) ∧
    (c.status = "failed_refactor" →
      ∃ f, c.refactor = some f ∧ f.success = false) := by
  obtain ⟨j, req, s2, rfl⟩ :=
    runCyclesLoop_mem env reqs 1 s c (by simpa [run_tdd_cycles] using hc)
  exact runCycle_record env j req s2

theorem cycle_record_invariants_witness :
    cFG ∈ (run_tdd_cycles envA ["r"] st0).1.cycles ∧
    (∃ g, cFG.green = some g ∧ g.success = false ∧ cFG.refactor = none) :=
  ⟨by decide,
    (cycle_record_invariants envA ["r"] st0 cFG (by decide)).2.2.1 (by decide)⟩

theorem runCycle_fields (env : Env) (i : Nat) (req : String) (s : St) :
    (runCycle env i req s).1.requirement = req ∧
    (runCycle env i req s).1.cycle = i := by
  refine ⟨?_, ?_⟩ <;>
  · simp only [runCycle]
    split
    · split <;> rfl
    · rfl

theorem runCycle_status (env : Env) (i : Nat) (req : String) (s : St) :
    (runCycle env i req s).1.status = "complete" ∨
    (runCycle env i req s).1.status = "failed_red" ∨
    (runCycle env i req s).1.status = "failed_green" ∨
    (runCycle env i req s).1.status = "failed_refactor" := by
  simp only [runCycle]
  split
  · split
    · split
      · exact Or.inl rfl
      · exact Or.inr (Or.inr (Or.inr rfl))
    · exact Or.inr (Or.inr (Or.inl rfl))
  · exact Or.inr (Or.inl rfl)

theorem runCyclesLoop_length (env : Env) :
    ∀ reqs i s, (runCyclesLoop env reqs i s).1.length = reqs.length := by
  intro reqs
  induction reqs with
  | nil => intro i s; rfl
  | cons req rest ih =>
    intro i s
    simp only [runCyclesLoop, List.length_cons, ih]

theorem runCyclesLoop_get? (env : Env) :
    ∀ reqs i s j c, (runCyclesLoop env reqs i s).1.get? j = some c →
      ∃ req s2, reqs.get? j = some req ∧
        c = (runCycle env (i + j) req s2).1 := by
  intro reqs
  induction reqs with
  | nil =>
    intro i s j c h
    simp [runCyclesLoop] at h
  | cons req rest ih =>
    intro i s j c h
    simp only [runCyclesLoop] at h
    cases j with
    | zero =>
      simp only [List.get?_cons_zero, Option.some.injEq] at h
      exact ⟨req, s, rfl, h.symm⟩
    | succ j =>
      simp only [List.get?_cons_succ] at h
      obtain ⟨req2, s2, hreq, hc⟩ := ih _ _ _ _ h
      have harith : i + 1 + j = i + (j + 1) := by omega
      rw [harith] at hc
      exact ⟨req2, s2, hreq, hc⟩

/-- C10: every pipeline run yields exactly one cycle record per input
requirement, in the same order (record `j` carries requirement `j` and
cycle number `j + 1`), and every record carries one of the four terminal
statuses. -/
theorem pipeline_cycles_shape (env : Env) (reqs : List String) (s : St) :
    (run_tdd_cycles env reqs s).1.cycles.length =
      (run_tdd_cycles env reqs s).1.total ∧
    (run_tdd_cycles env reqs s).1.total = reqs.length ∧
    ∀ j c, (run_tdd_cycles env reqs s).1.cycles.get? j = some c →
      reqs.get? j = some c.requirement ∧ c.cycle = j + 1 ∧
      (c.status = "complete" ∨ c.status = "failed_red" ∨
       c.status = "failed_green" ∨ c.status = "failed_refactor") := by
  refine ⟨by simp [run_tdd_cycles, runCyclesLoop_length], rfl, ?_⟩
  intro j c hc
  obtain ⟨req, s2, hreq, hcc⟩ :=
    runCyclesLoop_get? env reqs 1 s j c (by simpa [run_tdd_cycles] using hc)
  obtain ⟨hf1, hf2⟩ := runCycle_fields env (1 + j) req s2
  subst hcc
  refine ⟨by rw [hf1]; exact hreq, by rw [hf2]; omega, ?_⟩
  exact runCycle_status env (1 + j) req s2

theorem pipeline_cycles_shape_witness :
    (run_tdd_cycles envA ["r"] st0).1.cycles.get? 0 = some cFG ∧
    (["r"].get? 0 = some cFG.requirement ∧ cFG.cycle = 0 + 1 ∧
      (cFG.status = "complete" ∨ cFG.status = "failed_red" ∨
       cFG.status = "failed_green" ∨ cFG.status = "failed_refactor")) :=
  ⟨by decide, (pipeline_cycles_shape envA ["r"] st0).2.2 0 cFG (by decide)⟩

theorem implEvents_nil : implEvents [] = [] := rfl

theorem implEvents_cons_testRun (r : TestResult) (seg : List Ev) :
    implEvents (Ev.testRun r :: seg) = implEvents seg := rfl

theorem implEvents_cons_fileWrite (p c : String) (seg : List Ev) :
    implEvents (Ev.fileWrite p c :: seg) = implEvents seg := rfl

theorem implEvents_cons_attemptFail (f : AttemptRecord) (seg : List Ev) :
    implEvents (Ev.attemptFail f :: seg) = implEvents seg := rfl

theorem implEvents_cons_greenStart (mr : Nat) (seg : List Ev) :
    implEvents (Ev.greenStart mr :: seg) = implEvents seg := rfl

theorem implEvents_cons_genImplCall (n : Nat) (h te : String)
    (seg : List Ev) :
    implEvents (Ev.genImplCall n h te :: seg) =
      (n, h, te) :: implEvents seg := rfl

theorem failEvents_nil : failEvents [] = [] := rfl

theorem failEvents_cons_testRun (r : TestResult) (seg : List Ev) :
    failEvents (Ev.testRun r :: seg) = failEvents seg := rfl

theorem failEvents_cons_fileWrite (p c : String) (seg : List Ev) :
    failEvents (Ev.fileWrite p c :: seg) = failEvents seg := rfl

theorem failEvents_cons_greenStart (mr : Nat) (seg : List Ev) :
    failEvents (Ev.greenStart mr :: seg) = failEvents seg := rfl

theorem failEvents_cons_genImplCall (n : Nat) (h te : String)
    (seg : List Ev) :
    failEvents (Ev.genImplCall n h te :: seg) = failEvents seg := rfl

theorem failEvents_cons_attemptFail (f : AttemptRecord) (seg : List Ev) :
    failEvents (Ev.attemptFail f :: seg) = f :: failEvents seg := rfl

theorem hintBody_digest :
    ∀ (l : List AttemptRecord) (base i : Nat) (fi : AttemptRecord),
      l.get? i = some fi →
      List.IsInfix (attemptDigest (base + i) fi).data (hintBody base l).data := by
  intro l
  induction l with
  | nil =>
    intro base i fi h
    simp at h
  | cons p ps ih =>
    intro base i fi h
    cases i with
    | zero =>
      simp only [List.get?_cons_zero, Option.some.injEq] at h
      subst h
      refine ⟨[], (hintBody (base + 1) ps).data, ?_⟩
      simp only [hintBody, String.data_append, List.nil_append, Nat.add_zero]
    | succ i =>
      simp only [List.get?_cons_succ] at h
      obtain ⟨u, v, huv⟩ := ih (base + 1) i fi h
      refine ⟨(attemptDigest base p).data ++ u, v, ?_⟩
      have harith : base + (i + 1) = base + 1 + i := by omega
      rw [harith]
      simp only [hintBody, String.data_append]
      rw [← huv]
      simp [List.append_assoc]

theorem buildHint_digest (l : List AttemptRecord) (i : Nat)
    (fi : AttemptRecord) (h : l.get? i = some fi) :
    List.IsInfix (attemptDigest (i + 1) fi).data (buildHint l).data := by
  cases l with
  | nil => simp at h
  | cons p ps =>
    have h1 := hintBody_digest (p :: ps) 1 i fi h
    rw [Nat.add_comm 1 i] at h1
    obtain ⟨u, v, huv⟩ := h1
    refine ⟨("\n\nPREVIOUS FAILED ATTEMPTS:\n").data ++ u,
      v ++ hintFooter.data, ?_⟩
    simp only [buildHint, List.isEmpty_cons, Bool.false_eq_true, if_false,
      String.data_append]
    rw [← huv]
    simp [List.append_assoc]

theorem buildHint_footer (l : List AttemptRecord) (h : l ≠ []) :
    List.IsInfix hintFooter.data (buildHint l).data := by
  cases l with
  | nil => exact absurd rfl h
  | cons p ps =>
    refine ⟨("\n\nPREVIOUS FAILED ATTEMPTS:\n" ++ hintBody 1 (p :: ps)).data,
      [], ?_⟩
    rw [List.append_nil]
    simp only [buildHint, List.isEmpty_cons, Bool.false_eq_true, if_false,
      String.data_append]

theorem greenLoop_hints (env : Env) (K : Nat) :
    ∀ r prevs lastOut s, prevs.length + r = K →
      ∀ j ev,
        (implEvents (greenLoop env K r prevs lastOut s).2.2).get? j =
          some ev →
        ev.1 = prevs.length + j + 1 ∧
        ev.2.1 = buildHint (prevs ++
          (failEvents (greenLoop env K r prevs lastOut s).2.2).take j) ∧
        j ≤ (failEvents (greenLoop env K r prevs lastOut s).2.2).length ∧
        ∃ po, ev.2.2 = po ++ ev.2.1 := by
  intro r
  induction r with
  | zero =>
    intro prevs lastOut s hlen j ev hev
    simp [greenLoop, implEvents] at hev
  | succ n ih =>
    intro prevs lastOut s hlen j ev hev
    simp only [greenLoop, run_tests, write_file] at hev ⊢
    by_cases hv : (env.testResults (s.testCalls + 1)).success = true
    · rw [if_pos hv] at hev ⊢
      simp only [implEvents_cons_testRun, implEvents_cons_genImplCall,
        implEvents_cons_fileWrite, implEvents_nil, failEvents_cons_testRun,
        failEvents_cons_genImplCall, failEvents_cons_fileWrite,
        failEvents_nil] at hev ⊢
      cases j with
      | zero =>
        simp only [List.get?_cons_zero, Option.some.injEq] at hev
        subst hev
        refine ⟨by omega, ?_, Nat.zero_le _, ⟨_, rfl⟩⟩
        rw [List.take_zero, List.append_nil]
      | succ j =>
        simp at hev
    · rw [if_neg hv] at hev ⊢
      simp only [List.cons_append, List.nil_append] at hev ⊢
      simp only [implEvents_cons_testRun, implEvents_cons_genImplCall,
        implEvents_cons_fileWrite, implEvents_cons_attemptFail,
        failEvents_cons_testRun, failEvents_cons_genImplCall,
        failEvents_cons_fileWrite, failEvents_cons_attemptFail]
        at hev ⊢
      cases j with
      | zero =>
        simp only [List.get?_cons_zero, Option.some.injEq] at hev
        subst hev
        refine ⟨by omega, ?_, Nat.zero_le _, ⟨_, rfl⟩⟩
        rw [List.take_zero, List.append_nil]
      | succ j =>
        simp only [List.get?_cons_succ] at hev
        obtain ⟨h1, h2, h3, h4⟩ := ih _ _ _
          (by simp only [List.length_append, List.length_cons,
            List.length_nil]; omega) j ev hev
        refine ⟨?_, ?_, ?_, h4⟩
        · rw [h1]
          simp only [List.length_append, List.length_cons, List.length_nil]
          omega
        · rw [List.take_succ_cons, List.append_cons]
          exact h2
        · simp only [List.length_cons]
          omega

/-- C9: in every Green Phase call, the `j`-th generation-gateway call
(0-based) is attempt `j + 1`; its feedback string is exactly the hint built
from the `j` failed attempts recorded before it — empty on attempt 1, and
on every later attempt containing the digest (code truncated to 500
characters, error truncated to 300) of every one of the prior failed
attempts together with the explicit do-not-repeat instruction — and the
`test_error` handed to the gateway is the probe output followed by that
feedback string. -/
theorem green_feedback (env : Env) (test_filepath : String) (k : Nat)
    (s : St) (j : Nat) (ev : Nat × String × String)
    (hev : (implEvents
      (execute_green_phase env test_filepath k s).2.2).get? j = some ev) :
    ev.1 = j + 1 ∧
    ev.2.1 = buildHint
      ((failEvents (execute_green_phase env test_filepath k s).2.2).take j) ∧
    (j = 0 → ev.2.1 = "") ∧
    (∀ i fi, i < j →
      (failEvents (execute_green_phase env test_filepath k s).2.2).get? i =
        some fi →
      List.IsInfix (attemptDigest (i + 1) fi).data ev.2.1.data) ∧
    (0 < j → List.IsInfix hintFooter.data ev.2.1.data) ∧
    ∃ po, ev.2.2 = po ++ ev.2.1 := by
  revert hev
  simp only [execute_green_phase]
  cases hread : read_file s test_filepath with
  | none =>
    intro hev
    simp [implEvents] at hev
  | some tc =>
    intro hev
    simp only [implEvents_cons_greenStart, failEvents_cons_greenStart]
      at hev ⊢
    obtain ⟨h1, h2, h3, h4⟩ :=
      greenLoop_hints env k k [] ("") s (by simp) j ev hev
    simp only [List.nil_append] at h2
    simp only [List.length_nil] at h1
    refine ⟨by rw [h1]; omega, h2, ?_, ?_, ?_, h4⟩
    · intro hj
      subst hj
      rw [h2, List.take_zero]
      rfl
    · intro i fi hij hfi
      rw [h2]
      refine buildHint_digest _ i fi ?_
      rw [List.get?_take hij]
      exact hfi
    · intro hj
      rw [h2]
      refine buildHint_footer _ ?_
      apply List.ne_nil_of_length_pos
      rw [List.length_take]
      omega

theorem green_feedback_witness :
    (implEvents (execute_green_phase envA ("t") 2 stT).2.2).get? 1 =
      some evW ∧
    (evW.1 = 1 + 1 ∧
     evW.2.1 = buildHint
       ((failEvents (execute_green_phase envA ("t") 2 stT).2.2).take 1) ∧
     (1 = 0 → evW.2.1 = "") ∧
     (∀ i fi, i < 1 →
       (failEvents (execute_green_phase envA ("t") 2 stT).2.2).get? i =
         some fi →
       List.IsInfix (attemptDigest (i + 1) fi).data evW.2.1.data) ∧
     (0 < 1 → List.IsInfix hintFooter.data evW.2.1.data) ∧
     ∃ po, evW.2.2 = po ++ evW.2.1) :=
  ⟨rfl, green_feedback envA ("t") 2 stT 1 evW rfl⟩

end TDD
